import Mathlib

/-!
Verification development for the fault-tolerant Tesla telemetry edge agent
(`cpp_edge/logger.cpp`, presented as `src/unnamed/part_000`).

The C++ source is shallowly embedded below:

* IEEE-754 `float` arithmetic of the predictor is modelled as exact rational
  arithmetic over `ℚ`; all claims under study concern the control structure
  (comparisons, branch selection, state threading), not rounding behaviour.
* `std::chrono::steady_clock` instants are modelled as rationals measured in
  seconds; `duration_cast<seconds>` truncates toward zero, modelled by
  `truncSeconds`.
* C++ `int` counters are modelled as `ℤ` (they only ever increment here, so
  overflow is immaterial for the inputs under study).
* Protobuf serialisation round-trips (`SerializeToString` / `ParseFromArray`),
  so a buffered or transmitted payload is modelled by the decoded
  `CompressedVehicleData` value itself.
* Each call to `uploadCompressedToServer` is an interaction with the network;
  the environment is modelled by an oracle `ℕ → Bool` giving the result of the
  k-th transport call of the run (`true` = `curl_easy_perform` returned
  `CURLE_OK`).
-/

/-- `PredictorConfig` from the source, lines 20–27.  Member initialisers give
the default configuration; the constructor of `TelemetryPredictor` never
overrides them. -/
structure PredictorConfig where
  alpha : ℚ
  speed_threshold : ℚ
  power_threshold : ℚ
  battery_threshold : ℚ
  heading_threshold : ℚ
  resync_interval : ℤ
  deriving DecidableEq

/-- The default member initialisers of `PredictorConfig`:
`alpha = 0.3f`, thresholds `2.0f / 5.0f / 0.5f / 5.0f`, `resync_interval = 30`. -/
def defaultConfig : PredictorConfig :=
  { alpha := 3/10
    speed_threshold := 2
    power_threshold := 5
    battery_threshold := 1/2
    heading_threshold := 5
    resync_interval := 30 }

/-- `TransmitDecisions` from the source, lines 29–35. -/
structure TransmitDecisions where
  speed : Bool
  power : Bool
  battery : Bool
  heading : Bool
  is_resync : Bool
  deriving DecidableEq

/-- The mutable state of `TelemetryPredictor` (source lines 37–59).
`last_resync_time` is a monotonic-clock instant in seconds. -/
structure TelemetryPredictor where
  config : PredictorConfig
  predicted_speed : ℚ
  predicted_power : ℚ
  predicted_battery : ℚ
  predicted_heading : ℚ
  has_speed : Bool
  has_power : Bool
  has_battery : Bool
  has_heading : Bool
  last_resync_time : ℚ
  total_readings : ℤ
  transmitted_readings : ℤ
  skipped_readings : ℤ
  deriving DecidableEq

/-- `TelemetryPredictor::TelemetryPredictor()` (source lines 71–76): zero
predictions, all `has_*` flags false, zero counters, `last_resync_time`
set to the construction instant `t0`. -/
def initPredictor (t0 : ℚ) : TelemetryPredictor :=
  { config := defaultConfig
    predicted_speed := 0, predicted_power := 0
    predicted_battery := 0, predicted_heading := 0
    has_speed := false, has_power := false
    has_battery := false, has_heading := false
    last_resync_time := t0
    total_readings := 0, transmitted_readings := 0, skipped_readings := 0 }

/-- `std::chrono::duration_cast<std::chrono::seconds>` applied to the
difference of two instants measured in (rational) seconds: truncation
toward zero. -/
def truncSeconds (d : ℚ) : ℤ :=
  if 0 ≤ d then ⌊d⌋ else ⌈d⌉

/-- `TelemetryPredictor::exponentialSmooth` (source lines 61–63). -/
def exponentialSmooth (cfg : PredictorConfig) (actual last_predicted : ℚ) : ℚ :=
  cfg.alpha * actual + (1 - cfg.alpha) * last_predicted

/-- `TelemetryPredictor::shouldTransmit` (source lines 65–68). -/
def shouldTransmit (actual predicted threshold : ℚ) (has_prediction : Bool) : Bool :=
  if !has_prediction then true
  else decide (threshold < |actual - predicted|)

/-- `TelemetryPredictor::shouldTransmitPacket` (source lines 78–117), with the
monotonic-clock reading `now` made an explicit argument.  Returns the decisions
together with the updated predictor state. -/
def shouldTransmitPacket (p : TelemetryPredictor) (now : ℚ)
    (speed power battery heading : ℚ) : TransmitDecisions × TelemetryPredictor :=
  let elapsed := truncSeconds (now - p.last_resync_time)
  let d : TransmitDecisions :=
    if p.config.resync_interval ≤ elapsed then
      { speed := true, power := true, battery := true, heading := true,
        is_resync := true }
    else
      { speed := shouldTransmit speed p.predicted_speed p.config.speed_threshold p.has_speed
        power := shouldTransmit power p.predicted_power p.config.power_threshold p.has_power
        battery := shouldTransmit battery p.predicted_battery p.config.battery_threshold p.has_battery
        heading := shouldTransmit heading p.predicted_heading p.config.heading_threshold p.has_heading
        is_resync := false }
  let anyFlag := d.speed || d.power || d.battery || d.heading
  (d,
    { p with
      total_readings := p.total_readings + 1
      last_resync_time :=
        if p.config.resync_interval ≤ elapsed then now else p.last_resync_time
      transmitted_readings :=
        if anyFlag then p.transmitted_readings + 1 else p.transmitted_readings
      skipped_readings :=
        if anyFlag then p.skipped_readings else p.skipped_readings + 1
      predicted_speed :=
        exponentialSmooth p.config speed (if p.has_speed then p.predicted_speed else speed)
      predicted_power :=
        exponentialSmooth p.config power (if p.has_power then p.predicted_power else power)
      predicted_battery :=
        exponentialSmooth p.config battery (if p.has_battery then p.predicted_battery else battery)
      predicted_heading :=
        exponentialSmooth p.config heading (if p.has_heading then p.predicted_heading else heading)
      has_speed := true, has_power := true, has_battery := true, has_heading := true })

/-- `TelemetryPredictor::reset` (source lines 128–132); defined for reference —
no call site exists in the agent loop (cf. the comment at source line 514). -/
def TelemetryPredictor.reset (p : TelemetryPredictor) (now : ℚ) : TelemetryPredictor :=
  { p with
    has_speed := false, has_power := false, has_battery := false, has_heading := false
    total_readings := 0, transmitted_readings := 0, skipped_readings := 0
    last_resync_time := now }

/-- One sample extracted from a JSONL line by `main` (source lines 449–482):
`timestamp` int64 milliseconds, `battery` and `heading` integers, the rest
floats. -/
structure Sample where
  timestamp : ℤ
  speed : ℚ
  power : ℚ
  battery : ℤ
  heading : ℤ
  odometer : ℚ
  deriving DecidableEq

/-- The `tesla::CompressedVehicleData` protobuf message: required
`timestamp`, `odometer`, `is_resync`; optional (presence-tracked)
`vehicle_speed`, `power_kw`, `battery_level`, `heading`. -/
structure CompressedVehicleData where
  timestamp : ℤ
  odometer : ℚ
  is_resync : Bool
  vehicle_speed : Option ℚ
  power_kw : Option ℚ
  battery_level : Option ℤ
  heading : Option ℤ
  deriving DecidableEq

/-- The compressed record built by `main` (source lines 492–501): odometer is
always set, each optional field only when its decision flag is set,
`is_resync` copied from the decisions. -/
def buildCompressed (s : Sample) (d : TransmitDecisions) : CompressedVehicleData :=
  { timestamp := s.timestamp
    odometer := s.odometer
    is_resync := d.is_resync
    vehicle_speed := if d.speed then some s.speed else none
    power_kw := if d.power then some s.power else none
    battery_level := if d.battery then some s.battery else none
    heading := if d.heading then some s.heading else none }

/-- The complete record built by `main` for offline buffering (source lines
527–534): every field set to the sample's actual value, `is_resync = true`. -/
def buildComplete (s : Sample) : CompressedVehicleData :=
  { timestamp := s.timestamp
    odometer := s.odometer
    is_resync := true
    vehicle_speed := some s.speed
    power_kw := some s.power
    battery_level := some s.battery
    heading := some s.heading }

/-- One row of the SQLite table `telemetry_buffer`
(`id INTEGER PRIMARY KEY AUTOINCREMENT, timestamp INTEGER, protobuf_data BLOB`,
source lines 185–190).  The blob is modelled by its decoded record. -/
structure BufferEntry where
  id : ℕ
  timestamp : ℤ
  payload : CompressedVehicleData
  deriving DecidableEq

/-- The durable buffer: the table rows in insertion (rowid) order plus the next
autoincrement id. -/
structure Buffer where
  next_id : ℕ
  entries : List BufferEntry
  deriving DecidableEq

/-- `storeToBuffer` (source lines 207–229): `INSERT INTO telemetry_buffer
(timestamp, protobuf_data) VALUES (?, ?)` — appends a fresh row with the next
autoincrement id. -/
def storeToBuffer (b : Buffer) (timestamp : ℤ) (payload : CompressedVehicleData) : Buffer :=
  { next_id := b.next_id + 1
    entries := b.entries ++ [{ id := b.next_id, timestamp := timestamp, payload := payload }] }

/-- Timestamp ordering on buffer rows: the sort key of
`SELECT id, timestamp, protobuf_data FROM telemetry_buffer ORDER BY timestamp`
(source line 321). -/
def tsLe (a b : BufferEntry) : Prop := a.timestamp ≤ b.timestamp

instance : DecidableRel tsLe := fun a b => inferInstanceAs (Decidable (a.timestamp ≤ b.timestamp))

instance : IsTotal BufferEntry tsLe := ⟨fun a b => le_total a.timestamp b.timestamp⟩

instance : IsTrans BufferEntry tsLe := ⟨fun _ _ _ h h' => le_trans h h'⟩

/-- The contract SQLite gives for `ORDER BY timestamp` with no secondary sort
key: the result is some permutation of the rows that is non-decreasing in
`timestamp`; the relative order of rows with equal `timestamp` is left
unspecified by SQLite. -/
def sqlOrderedByTimestamp (entries result : List BufferEntry) : Prop :=
  result.Perm entries ∧ result.Sorted tsLe

/-- The row order actually used by the embedded drain: a stable sort of the
rows by `timestamp` (insertion order preserved among equal timestamps).  This
is one behaviour allowed by `sqlOrderedByTimestamp`, and the one SQLite's
rowid-order table scan plus sorter produces in practice. -/
def queryOrderByTimestamp (entries : List BufferEntry) : List BufferEntry :=
  entries.insertionSort tsLe

/-- The body of the `while (sqlite3_step(stmt) == SQLITE_ROW)` loop of
`flushBuffer` (source lines 332–357), iterated over the query result.
`k` is the index of the next transport call; for each row one upload is
attempted (`oracle k`): on success the row's id is collected for deletion and
its payload is delivered; on failure the row is kept and — the loop does not
break — iteration continues with the next row.  Returns (deleted ids,
delivered payloads in upload order, next transport-call index). -/
def drainRows (oracle : ℕ → Bool) : ℕ → List BufferEntry → List ℕ × List CompressedVehicleData × ℕ
  | k, [] => ([], [], k)
  | k, e :: rest =>
    if oracle k then
      let r := drainRows oracle (k + 1) rest
      (e.id :: r.1, e.payload :: r.2.1, r.2.2)
    else
      drainRows oracle (k + 1) rest

/-- `flushBuffer` (source lines 320–368): select all rows ordered by
`timestamp`, attempt to upload each, delete a row exactly when its upload
succeeded.  Returns the buffer after the pass, the payloads delivered to the
ingest endpoint in order, and the next transport-call index. -/
def flushBuffer (oracle : ℕ → Bool) (k : ℕ) (b : Buffer) :
    Buffer × List CompressedVehicleData × ℕ :=
  let r := drainRows oracle k (queryOrderByTimestamp b.entries)
  ({ next_id := b.next_id
     entries := b.entries.filter (fun e => decide (e.id ∉ r.1)) },
   r.2.1, r.2.2)

/-- Result of one `curl_easy_perform` with `CURLOPT_TIMEOUT 5`: either the
HTTP exchange completed within the 5 s timeout (with some status code), or the
call timed out, or a transport error occurred. -/
inductive CurlOutcome where
  | completed : ℕ → CurlOutcome
  | timedOut : CurlOutcome
  | transportError : CurlOutcome
  deriving DecidableEq

/-- The success test of `uploadCompressedToServer` (source line 298):
`success = (res == CURLE_OK)`.  Since `CURLOPT_FAILONERROR` is not set,
`curl_easy_perform` returns `CURLE_OK` whenever the HTTP exchange completes,
whatever the response status; timeouts and transport errors return other
codes. -/
def uploadCompressedToServer (r : CurlOutcome) : Bool :=
  match r with
  | .completed _ => true
  | .timedOut => false
  | .transportError => false

/-- Modelled from the spec (§4.4, §6.1): success means the endpoint returned a
2xx response within the timeout.  Stated for comparison with
`uploadCompressedToServer`. -/
def specUploadOk (r : CurlOutcome) : Prop :=
  ∃ n, r = CurlOutcome.completed n ∧ 200 ≤ n ∧ n < 300

instance : DecidablePred specUploadOk := fun r =>
  match r with
  | .completed n =>
    if h : 200 ≤ n ∧ n < 300 then .isTrue ⟨n, rfl, h.1, h.2⟩
    else .isFalse (by rintro ⟨m, hm, h1, h2⟩; cases hm; exact h ⟨h1, h2⟩)
  | .timedOut => .isFalse (by rintro ⟨m, hm, -, -⟩; cases hm)
  | .transportError => .isFalse (by rintro ⟨m, hm, -, -⟩; cases hm)

/-- The per-sample mutable state of `main`'s replay loop (source lines
438–440 and the globals): predictor, SQLite buffer, the sticky `was_offline`
flag, the sequence of records so far received by the ingest endpoint, and the
index of the next transport call. -/
structure AgentState where
  predictor : TelemetryPredictor
  buffer : Buffer
  was_offline : Bool
  delivered : List CompressedVehicleData
  attempts : ℕ
  deriving DecidableEq

/-- Agent state at program start: fresh predictor, empty buffer (SQLite
autoincrement ids start at 1), `was_offline = false`, nothing delivered. -/
def initAgentState (t0 : ℚ) : AgentState :=
  { predictor := initPredictor t0
    buffer := { next_id := 1, entries := [] }
    was_offline := false
    delivered := []
    attempts := 0 }

/-- One iteration of `main`'s replay loop (source lines 484–545) on sample
`s`, with `online` the value of `is_online` read at line 508 and `now` the
monotonic clock instant of the iteration:

1. `g_predictor.shouldTransmitPacket(...)` (line 487);
2. build the compressed record from the decisions (lines 492–501);
3. if online: drain first when `was_offline` (lines 510–516), then attempt the
   live upload; on failure buffer the *compressed* bytes (lines 519–523);
4. if offline: buffer a complete record with `is_resync = true`
   (lines 524–544) and set `was_offline`. -/
def processSample (oracle : ℕ → Bool) (st : AgentState) (online : Bool) (now : ℚ)
    (s : Sample) : AgentState :=
  let dp := shouldTransmitPacket st.predictor now s.speed s.power
    (s.battery : ℚ) (s.heading : ℚ)
  let compressed := buildCompressed s dp.1
  if online then
    let fl :=
      if st.was_offline then flushBuffer oracle st.attempts st.buffer
      else (st.buffer, [], st.attempts)
    if oracle fl.2.2 then
      { predictor := dp.2
        buffer := fl.1
        was_offline := false
        delivered := st.delivered ++ fl.2.1 ++ [compressed]
        attempts := fl.2.2 + 1 }
    else
      { predictor := dp.2
        buffer := storeToBuffer fl.1 s.timestamp compressed
        was_offline := false
        delivered := st.delivered ++ fl.2.1
        attempts := fl.2.2 + 1 }
  else
    { predictor := dp.2
      buffer := storeToBuffer st.buffer s.timestamp (buildComplete s)
      was_offline := true
      delivered := st.delivered
      attempts := st.attempts }

/-- One loop input: the `is_online` value observed for the iteration, the
monotonic clock reading, and the parsed sample. -/
structure AgentInput where
  online : Bool
  now : ℚ
  sample : Sample
  deriving DecidableEq

/-- The whole replay loop (source lines 443–562). -/
def runAgent (oracle : ℕ → Bool) (t0 : ℚ) (inputs : List AgentInput) : AgentState :=
  inputs.foldl (fun st i => processSample oracle st i.online i.now i.sample)
    (initAgentState t0)

/-- The replay loop followed by the final flush (source lines 565–568):
when `is_online` still holds at the end and the last sample was processed
offline, one more drain pass runs. -/
def runAgentFinal (oracle : ℕ → Bool) (t0 : ℚ) (inputs : List AgentInput)
    (finalOnline : Bool) : AgentState :=
  let st := runAgent oracle t0 inputs
  if finalOnline && st.was_offline then
    let fl := flushBuffer oracle st.attempts st.buffer
    { st with buffer := fl.1, delivered := st.delivered ++ fl.2.1, attempts := fl.2.2 }
  else st

/-- Timestamps of the records delivered to the ingest endpoint, in order of
arrival. -/
def deliveredTs (st : AgentState) : List ℤ :=
  st.delivered.map (fun r => r.timestamp)

/-- A sample whose numeric fields are all zero except the timestamp; used by
the concrete runs below. -/
def zeroSample (t : ℤ) : Sample :=
  { timestamp := t, speed := 0, power := 0, battery := 0, heading := 0, odometer := 0 }

/-- Transport environment for the ordering counterexample: the very first
transport call of the run fails, every later one succeeds. -/
def orderingOracle : ℕ → Bool := fun k => decide (0 < k)

/-- Input schedule for the ordering counterexample: four samples with
non-decreasing timestamps 2, 3, 4, 5; the third is processed offline. -/
def orderingInputs : List AgentInput :=
  [ { online := true, now := 0, sample := zeroSample 2 }
  , { online := true, now := 0, sample := zeroSample 3 }
  , { online := false, now := 0, sample := zeroSample 4 }
  , { online := true, now := 0, sample := zeroSample 5 } ]

/-- Transport environment for the fallback counterexample: the first call
succeeds, every later one fails. -/
def fallbackOracle : ℕ → Bool := fun k => decide (k = 0)

/-- Input schedule for the fallback counterexample: two equal-valued online
samples; the second one's live upload fails. -/
def fallbackInputs : List AgentInput :=
  [ { online := true, now := 0, sample := zeroSample 10 }
  , { online := true, now := 0, sample := zeroSample 20 } ]

/-- A two-row buffer whose sorted row order puts timestamp 1 before
timestamp 2; used by the drain-abort counterexample. -/
def drainBuffer : Buffer :=
  { next_id := 3
    entries :=
      [ { id := 1, timestamp := 1, payload := buildComplete (zeroSample 1) }
      , { id := 2, timestamp := 2, payload := buildComplete (zeroSample 2) } ] }

/-- Transport environment for the drain-abort counterexample: the first call
fails, every later one succeeds. -/
def drainOracle : ℕ → Bool := fun k => decide (0 < k)

/-- Two buffer rows sharing timestamp 5 with ids 1 and 2; used by the
tie-break counterexample. -/
def tieRowA : BufferEntry :=
  { id := 1, timestamp := 5, payload := buildComplete (zeroSample 5) }

/-- Second row of the tie-break counterexample (same timestamp, larger id,
different payload). -/
def tieRowB : BufferEntry :=
  { id := 2, timestamp := 5,
    payload := { buildComplete (zeroSample 5) with odometer := 1 } }

/-- The spec's drain iteration order (§4.2, §6.3): `timestamp ASC, id ASC`. -/
def tsIdLe (a b : BufferEntry) : Prop :=
  a.timestamp < b.timestamp ∨ (a.timestamp = b.timestamp ∧ a.id ≤ b.id)

instance : DecidableRel tsIdLe := fun a b =>
  inferInstanceAs
    (Decidable (a.timestamp < b.timestamp ∨ (a.timestamp = b.timestamp ∧ a.id ≤ b.id)))

/-- One input to the predictor alone (clock reading plus the four actual
field values passed at source line 487). -/
structure PredictorInput where
  now : ℚ
  speed : ℚ
  power : ℚ
  battery : ℚ
  heading : ℚ
  deriving DecidableEq

/-- A sequence of `shouldTransmitPacket` calls starting from a freshly
constructed predictor. -/
def runPredictor (t0 : ℚ) (inputs : List PredictorInput) : TelemetryPredictor :=
  inputs.foldl
    (fun p i => (shouldTransmitPacket p i.now i.speed i.power i.battery i.heading).2)
    (initPredictor t0)

/-- Invariant carried along a run in which every transport call succeeds:
`bound` dominates every timestamp the agent has handled so far.
The conjuncts: delivered timestamps are non-decreasing; everything delivered
is no newer than anything still buffered; buffered and delivered timestamps
are at most `bound`; after an online iteration the buffer is empty; a row's
column `timestamp` agrees with its payload's `timestamp` field. -/
def GoodState (st : AgentState) (bound : ℤ) : Prop :=
  List.Sorted (· ≤ ·) (deliveredTs st) ∧
  (∀ x ∈ deliveredTs st, ∀ e ∈ st.buffer.entries, x ≤ e.timestamp) ∧
  (∀ e ∈ st.buffer.entries, e.timestamp ≤ bound) ∧
  (∀ x ∈ deliveredTs st, x ≤ bound) ∧
  (st.was_offline = false → st.buffer.entries = []) ∧
  (∀ e ∈ st.buffer.entries, e.payload.timestamp = e.timestamp)

lemma truncSeconds_thirty_le (d : ℚ) : (30 : ℤ) ≤ truncSeconds d ↔ (30 : ℚ) ≤ d := by
  unfold truncSeconds
  split
  · rw [Int.le_floor]; norm_num
  · rename_i h
    push_neg at h
    have hceil : ⌈d⌉ ≤ 0 := Int.ceil_le.mpr (by push_cast; exact h.le)
    constructor
    · intro hc; omega
    · intro hc; exfalso; linarith

lemma shouldTransmit_eq_true_iff (a pr th : ℚ) (has : Bool) :
    shouldTransmit a pr th has = true ↔ (has = false ∨ th < |a - pr|) := by
  cases has <;> simp [shouldTransmit]

/-- Claim C5: `shouldTransmitPacket` produces a resync decision (all four
field flags and `is_resync` true, `last_resync_time` moved to `now`) exactly
when at least 30 seconds of monotonic time have elapsed since the last
resync; otherwise `is_resync` is false and each field flag is true iff the
field has no prediction yet or the actual value deviates from the prediction
by strictly more than the field's tolerance (speed 2.0, power 5.0,
battery 0.5, heading 5.0). -/
theorem claim5_decide_semantics (p : TelemetryPredictor) (now sp pw bt hd : ℚ)
    (hc : p.config = defaultConfig) :
    (30 ≤ now - p.last_resync_time →
      (shouldTransmitPacket p now sp pw bt hd).1 =
        { speed := true, power := true, battery := true, heading := true, is_resync := true } ∧
      (shouldTransmitPacket p now sp pw bt hd).2.last_resync_time = now) ∧
    (now - p.last_resync_time < 30 →
      (shouldTransmitPacket p now sp pw bt hd).1.is_resync = false ∧
      ((shouldTransmitPacket p now sp pw bt hd).1.speed = true ↔
        (p.has_speed = false ∨ 2 < |sp - p.predicted_speed|)) ∧
      ((shouldTransmitPacket p now sp pw bt hd).1.power = true ↔
        (p.has_power = false ∨ 5 < |pw - p.predicted_power|)) ∧
      ((shouldTransmitPacket p now sp pw bt hd).1.battery = true ↔
        (p.has_battery = false ∨ (1 : ℚ)/2 < |bt - p.predicted_battery|)) ∧
      ((shouldTransmitPacket p now sp pw bt hd).1.heading = true ↔
        (p.has_heading = false ∨ 5 < |hd - p.predicted_heading|))) := by
  have key : (p.config.resync_interval ≤ truncSeconds (now - p.last_resync_time)) ↔
      (30 ≤ now - p.last_resync_time) := by
    rw [hc]
    exact truncSeconds_thirty_le _
  constructor
  · intro h
    have h' := key.mpr h
    constructor
    · simp [shouldTransmitPacket, if_pos h']
    · simp [shouldTransmitPacket, if_pos h']
  · intro h
    have h'' : ¬ ((30 : ℤ) ≤ truncSeconds (now - p.last_resync_time)) := fun hcon =>
      (not_le.mpr h) ((truncSeconds_thirty_le _).mp hcon)
    have hcond : ¬ (p.config.resync_interval ≤ truncSeconds (now - p.last_resync_time)) := by
      rw [hc]; exact h''
    refine ⟨?_, ?_, ?_, ?_, ?_⟩ <;>
      simp [shouldTransmitPacket, hcond, h'', shouldTransmit_eq_true_iff, hc, defaultConfig]

/-- Witness for C5: on a fresh predictor 50 seconds after construction, the
decision is a full resync. -/
theorem claim5_witness :
    (initPredictor 0).config = defaultConfig ∧
    (30 : ℚ) ≤ 50 - (initPredictor 0).last_resync_time ∧
    (shouldTransmitPacket (initPredictor 0) 50 1 2 3 4).1 =
      { speed := true, power := true, battery := true, heading := true, is_resync := true } := by
  refine ⟨rfl, by norm_num [initPredictor], ?_⟩
  exact ((claim5_decide_semantics (initPredictor 0) 50 1 2 3 4 rfl).1
    (by norm_num [initPredictor])).1

/-- Claim C6: `shouldTransmitPacket` updates every field's smoothed
prediction — transmitted or not — to
`α·actual + (1−α)·(initialised ? predicted : actual)`, marks all fields
initialised, and the decision it returns is computed from the predictions as
they were *before* this update (spelled out for the non-resync branch, the
only one that reads them). -/
theorem claim6_update_semantics (p : TelemetryPredictor) (now sp pw bt hd : ℚ) :
    ((shouldTransmitPacket p now sp pw bt hd).2.predicted_speed =
        p.config.alpha * sp + (1 - p.config.alpha) *
          (if p.has_speed then p.predicted_speed else sp) ∧
      (shouldTransmitPacket p now sp pw bt hd).2.predicted_power =
        p.config.alpha * pw + (1 - p.config.alpha) *
          (if p.has_power then p.predicted_power else pw) ∧
      (shouldTransmitPacket p now sp pw bt hd).2.predicted_battery =
        p.config.alpha * bt + (1 - p.config.alpha) *
          (if p.has_battery then p.predicted_battery else bt) ∧
      (shouldTransmitPacket p now sp pw bt hd).2.predicted_heading =
        p.config.alpha * hd + (1 - p.config.alpha) *
          (if p.has_heading then p.predicted_heading else hd)) ∧
    ((shouldTransmitPacket p now sp pw bt hd).2.has_speed = true ∧
      (shouldTransmitPacket p now sp pw bt hd).2.has_power = true ∧
      (shouldTransmitPacket p now sp pw bt hd).2.has_battery = true ∧
      (shouldTransmitPacket p now sp pw bt hd).2.has_heading = true) ∧
    ((shouldTransmitPacket p now sp pw bt hd).1.is_resync = false →
      (shouldTransmitPacket p now sp pw bt hd).1 =
        { speed := shouldTransmit sp p.predicted_speed p.config.speed_threshold p.has_speed
          power := shouldTransmit pw p.predicted_power p.config.power_threshold p.has_power
          battery := shouldTransmit bt p.predicted_battery p.config.battery_threshold p.has_battery
          heading := shouldTransmit hd p.predicted_heading p.config.heading_threshold p.has_heading
          is_resync := false }) := by
  refine ⟨⟨?_, ?_, ?_, ?_⟩, ⟨?_, ?_, ?_, ?_⟩, ?_⟩ <;>
    simp only [shouldTransmitPacket, exponentialSmooth]
  all_goals split <;> simp

/-- Witness for C6: a fresh predictor queried at its construction instant
produces a non-resync decision, so it equals the per-field `shouldTransmit`
decisions taken on the pre-update predictions. -/
theorem claim6_witness :
    (shouldTransmitPacket (initPredictor 0) 0 1 2 3 4).1 =
      { speed := shouldTransmit 1 (initPredictor 0).predicted_speed
          (initPredictor 0).config.speed_threshold (initPredictor 0).has_speed
        power := shouldTransmit 2 (initPredictor 0).predicted_power
          (initPredictor 0).config.power_threshold (initPredictor 0).has_power
        battery := shouldTransmit 3 (initPredictor 0).predicted_battery
          (initPredictor 0).config.battery_threshold (initPredictor 0).has_battery
        heading := shouldTransmit 4 (initPredictor 0).predicted_heading
          (initPredictor 0).config.heading_threshold (initPredictor 0).has_heading
        is_resync := false } :=
  (claim6_update_semantics (initPredictor 0) 0 1 2 3 4).2.2
    (by norm_num [shouldTransmitPacket, truncSeconds, initPredictor, defaultConfig])

lemma shouldTransmitPacket_counts (p : TelemetryPredictor) (now a b c d : ℚ) :
    (shouldTransmitPacket p now a b c d).2.total_readings = p.total_readings + 1 ∧
    (((shouldTransmitPacket p now a b c d).2.transmitted_readings = p.transmitted_readings + 1 ∧
        (shouldTransmitPacket p now a b c d).2.skipped_readings = p.skipped_readings) ∨
      ((shouldTransmitPacket p now a b c d).2.transmitted_readings = p.transmitted_readings ∧
        (shouldTransmitPacket p now a b c d).2.skipped_readings = p.skipped_readings + 1)) := by
  refine ⟨by simp [shouldTransmitPacket], ?_⟩
  simp only [shouldTransmitPacket]
  split
  · exact Or.inl ⟨by simp, by simp⟩
  · split
    · rename_i hA
      exact Or.inl ⟨by simp [hA], by simp [hA]⟩
    · rename_i hA
      exact Or.inr ⟨by simp [hA], by simp [hA]⟩

lemma runPredictor_fold_inv (l : List PredictorInput) :
    ∀ p : TelemetryPredictor,
      p.total_readings = p.transmitted_readings + p.skipped_readings →
      (l.foldl (fun p i =>
          (shouldTransmitPacket p i.now i.speed i.power i.battery i.heading).2) p).total_readings =
        (l.foldl (fun p i =>
          (shouldTransmitPacket p i.now i.speed i.power i.battery i.heading).2) p).transmitted_readings +
        (l.foldl (fun p i =>
          (shouldTransmitPacket p i.now i.speed i.power i.battery i.heading).2) p).skipped_readings := by
  induction l with
  | nil => intro p h; simpa using h
  | cons i rest ih =>
    intro p h
    simp only [List.foldl_cons]
    apply ih
    obtain ⟨ht, hts⟩ := shouldTransmitPacket_counts p i.now i.speed i.power i.battery i.heading
    rcases hts with ⟨h1, h2⟩ | ⟨h1, h2⟩ <;> rw [ht, h1, h2] <;> omega

/-- Claim C10: every `shouldTransmitPacket` call increments `total_readings`
by one and exactly one of `transmitted_readings` / `skipped_readings`; hence
along any call sequence from a freshly constructed predictor,
`total = transmitted + skipped` holds after every call. -/
theorem claim10_counter_invariant :
    (∀ (p : TelemetryPredictor) (now a b c d : ℚ),
      (shouldTransmitPacket p now a b c d).2.total_readings = p.total_readings + 1 ∧
      (((shouldTransmitPacket p now a b c d).2.transmitted_readings = p.transmitted_readings + 1 ∧
          (shouldTransmitPacket p now a b c d).2.skipped_readings = p.skipped_readings) ∨
        ((shouldTransmitPacket p now a b c d).2.transmitted_readings = p.transmitted_readings ∧
          (shouldTransmitPacket p now a b c d).2.skipped_readings = p.skipped_readings + 1))) ∧
    (∀ (t0 : ℚ) (inputs : List PredictorInput),
      (runPredictor t0 inputs).total_readings =
        (runPredictor t0 inputs).transmitted_readings +
          (runPredictor t0 inputs).skipped_readings) :=
  ⟨fun p now a b c d => shouldTransmitPacket_counts p now a b c d,
   fun _ inputs => runPredictor_fold_inv inputs _ (by simp [initPredictor])⟩

/-- Counterexample to C4 as stated: an HTTP exchange that completes with
status 500 is reported as success by `uploadCompressedToServer` (only
`res == CURLE_OK` is checked; `CURLOPT_FAILONERROR` is never set), although
it is not a 2xx response. -/
theorem claim4_counterexample :
    uploadCompressedToServer (CurlOutcome.completed 500) = true ∧
    ¬ specUploadOk (CurlOutcome.completed 500) := by
  constructor
  · rfl
  · decide

/-- Claim C4 as amended: the upload reports success iff the HTTP exchange
completed within the 5-second timeout — whatever the response status code;
timeouts and transport errors are reported as failure. -/
theorem claim4_amended (r : CurlOutcome) :
    uploadCompressedToServer r = true ↔ ∃ n, r = CurlOutcome.completed n := by
  cases r <;> simp [uploadCompressedToServer]

/-- Claim C7: a sample processed while Offline appends to the buffer — under
the sample's timestamp — a full record carrying the sample's timestamp,
odometer, and all four optional fields with their actual values and
`is_resync = true`; the predictor still advances from the sample exactly as
`shouldTransmitPacket` dictates. -/
theorem claim7_offline_full_record (oracle : ℕ → Bool) (st : AgentState) (now : ℚ)
    (s : Sample) :
    (processSample oracle st false now s).buffer.entries =
      st.buffer.entries ++
        [ { id := st.buffer.next_id, timestamp := s.timestamp,
            payload :=
              { timestamp := s.timestamp, odometer := s.odometer, is_resync := true,
                vehicle_speed := some s.speed, power_kw := some s.power,
                battery_level := some s.battery, heading := some s.heading } } ] ∧
    (processSample oracle st false now s).predictor =
      (shouldTransmitPacket st.predictor now s.speed s.power (s.battery : ℚ) (s.heading : ℚ)).2 := by
  constructor <;> simp [processSample, storeToBuffer, buildComplete]

/-- Claim C8: the predictor state (smoothed predictions, initialised flags,
resync clock and the three statistics counters) produced by a loop iteration
is exactly the `shouldTransmitPacket` update of the previous predictor state:
it does not depend on the link state, on `was_offline`, or on the buffer —
in particular a drain pass triggered by returning Online leaves it untouched
(`flushBuffer` neither receives nor returns predictor state), and no path
calls `TelemetryPredictor.reset`. -/
theorem claim8_drain_preserves_predictor (oracle : ℕ → Bool) (st : AgentState)
    (online wasOff : Bool) (now : ℚ) (s : Sample) :
    (processSample oracle { st with was_offline := wasOff } online now s).predictor =
      (shouldTransmitPacket st.predictor now s.speed s.power (s.battery : ℚ) (s.heading : ℚ)).2 := by
  cases online <;> cases wasOff <;> simp [processSample] <;> split <;> rfl

/-- Counterexample to C3 as stated: two equal online samples, the second
upload failing.  The second sample's decisions skip every field (no deviation,
no resync due), so the compressed record has `is_resync = false` and no
optional fields — and it is exactly this record, not a full record, that
`main` buffers on the failed upload (source line 522 stores
`serialized_compressed`). -/
theorem claim3_counterexample :
    (runAgent fallbackOracle 0 fallbackInputs).buffer.entries =
      [ { id := 1, timestamp := 20,
          payload :=
            { timestamp := 20, odometer := 0, is_resync := false,
              vehicle_speed := none, power_kw := none,
              battery_level := none, heading := none } } ] := by
  norm_num [runAgent, fallbackInputs, fallbackOracle, initAgentState, processSample,
    shouldTransmitPacket, truncSeconds, shouldTransmit, exponentialSmooth,
    buildCompressed, storeToBuffer, zeroSample, initPredictor, defaultConfig]

/-- Claim C3 as amended: when the agent is Online (with no pending drain) and
the live upload fails, the record appended to the buffer is the compressed
record that just failed to upload — with exactly the fields selected by the
transmit decisions and `is_resync` copied from them — not a rebuilt full
record; nothing is delivered in that iteration. -/
theorem claim3_amended (oracle : ℕ → Bool) (st : AgentState) (now : ℚ) (s : Sample)
    (hoff : st.was_offline = false) (hfail : oracle st.attempts = false) :
    (processSample oracle st true now s).buffer.entries =
      st.buffer.entries ++
        [ { id := st.buffer.next_id, timestamp := s.timestamp,
            payload := buildCompressed s
              (shouldTransmitPacket st.predictor now s.speed s.power
                (s.battery : ℚ) (s.heading : ℚ)).1 } ] ∧
    (processSample oracle st true now s).delivered = st.delivered := by
  constructor <;> simp [processSample, hoff, hfail, storeToBuffer]

/-- Witness for C3-as-amended: a concrete failing live upload buffers the
compressed record. -/
theorem claim3_amended_witness :
    (initAgentState 0).was_offline = false ∧
    (fun _ => false : ℕ → Bool) (initAgentState 0).attempts = false ∧
    (processSample (fun _ => false) (initAgentState 0) true 0 (zeroSample 7)).buffer.entries =
      (initAgentState 0).buffer.entries ++
        [ { id := (initAgentState 0).buffer.next_id, timestamp := (zeroSample 7).timestamp,
            payload := buildCompressed (zeroSample 7)
              (shouldTransmitPacket (initAgentState 0).predictor 0 (zeroSample 7).speed
                (zeroSample 7).power ((zeroSample 7).battery : ℚ)
                ((zeroSample 7).heading : ℚ)).1 } ] :=
  ⟨rfl, rfl,
    (claim3_amended (fun _ => false) (initAgentState 0) 0 (zeroSample 7) rfl rfl).1⟩

/-- Counterexample to C9 as stated: for a buffer holding two rows with equal
timestamp 5 and ids 1 < 2, the row order putting id 2 first satisfies
everything the drain query (`ORDER BY timestamp` — source line 321, with no
secondary key) guarantees, yet is not sorted by `timestamp ASC, id ASC`:
the id tie-break is not requested from SQLite. -/
theorem claim9_counterexample :
    sqlOrderedByTimestamp [tieRowA, tieRowB] [tieRowB, tieRowA] ∧
    ¬ List.Sorted tsIdLe [tieRowB, tieRowA] := by
  refine ⟨⟨?_, ?_⟩, ?_⟩
  · exact List.Perm.swap tieRowA tieRowB []
  · decide
  · decide

/-- Claim C9 as amended: drain iteration yields exactly the buffer's entries
and in non-decreasing timestamp order, for every buffer content; the relative
order of entries with equal timestamps, however, is not fixed by the query
(no id tie-break is guaranteed). -/
theorem claim9_amended (entries result : List BufferEntry)
    (h : sqlOrderedByTimestamp entries result) :
    result.Perm entries ∧
    List.Sorted (· ≤ ·) (result.map (fun e => e.timestamp)) := by
  refine ⟨h.1, ?_⟩
  have h2 : List.Pairwise (fun a b : BufferEntry => a.timestamp ≤ b.timestamp) result := h.2
  exact @List.Pairwise.map ℤ BufferEntry (fun a b => a.timestamp ≤ b.timestamp) result
    (· ≤ ·) (fun e => e.timestamp) (fun a b hab => hab) h2

/-- Witness for C9-as-amended at a concrete query result. -/
theorem claim9_amended_witness :
    sqlOrderedByTimestamp [tieRowA, tieRowB] [tieRowB, tieRowA] ∧
    ([tieRowB, tieRowA] : List BufferEntry).Perm [tieRowA, tieRowB] ∧
    List.Sorted (· ≤ ·) ([tieRowB, tieRowA].map (fun e => e.timestamp)) := by
  have hq : sqlOrderedByTimestamp [tieRowA, tieRowB] [tieRowB, tieRowA] :=
    ⟨List.Perm.swap tieRowA tieRowB [], by decide⟩
  have h := claim9_amended [tieRowA, tieRowB] [tieRowB, tieRowA] hq
  exact ⟨hq, h.1, h.2⟩

/-- Counterexample to C2 as stated: a two-row buffer whose first (oldest)
upload fails.  The drain does *not* stop: the second row is still attempted
(the transport-call cursor advances to 2), its payload is delivered, and it
is deleted from the buffer — the `while` loop of `flushBuffer` has no
`break` on failure (source lines 352–355). -/
theorem claim2_counterexample :
    (flushBuffer drainOracle 0 drainBuffer).2.2 = 2 ∧
    (flushBuffer drainOracle 0 drainBuffer).2.1 = [buildComplete (zeroSample 2)] ∧
    (flushBuffer drainOracle 0 drainBuffer).1.entries =
      [ { id := 1, timestamp := 1, payload := buildComplete (zeroSample 1) } ] := by
  refine ⟨?_, ?_, ?_⟩ <;> decide

lemma drainRows_cursor (oracle : ℕ → Bool) :
    ∀ (l : List BufferEntry) (k : ℕ), (drainRows oracle k l).2.2 = k + l.length := by
  intro l
  induction l with
  | nil => intro k; simp [drainRows]
  | cons e rest ih =>
    intro k
    by_cases h : oracle k <;> simp [drainRows, h, ih] <;> omega

lemma drainRows_ids (oracle : ℕ → Bool) :
    ∀ (l : List BufferEntry) (k : ℕ),
      (drainRows oracle k l).1 =
        ((l.enumFrom k).filter (fun p => oracle p.1)).map (fun p => p.2.id) := by
  intro l
  induction l with
  | nil => intro k; simp [drainRows]
  | cons e rest ih =>
    intro k
    by_cases h : oracle k <;> simp [drainRows, List.enumFrom, h, ih]

lemma mem_enumFrom_snd {α : Type} :
    ∀ {l : List α} {n : ℕ} {p : ℕ × α}, p ∈ l.enumFrom n → p.2 ∈ l := by
  intro l
  induction l with
  | nil => intro n p h; simp [List.enumFrom] at h
  | cons e rest ih =>
    intro n p h
    simp only [List.enumFrom, List.mem_cons] at h
    rcases h with h | h
    · subst h; simp
    · exact List.mem_cons_of_mem _ (ih h)

lemma pairwise_enumFrom {α : Type} {R : α → α → Prop} :
    ∀ {l : List α} {n : ℕ}, l.Pairwise R →
      (l.enumFrom n).Pairwise (fun a b => R a.2 b.2) := by
  intro l
  induction l with
  | nil => intro n _; simp [List.enumFrom]
  | cons e rest ih =>
    intro n h
    rw [List.pairwise_cons] at h
    refine List.Pairwise.cons ?_ (ih h.2)
    intro q hq
    exact h.1 q.2 (mem_enumFrom_snd hq)

/-- Claim C2 as amended: when an upload fails during a drain pass, only that
entry is kept; the pass does not abort — an upload is attempted for every
entry of the pass (the transport-call cursor advances by the full buffer
length), and an entry remains in the buffer afterwards exactly when its own
upload attempt failed. -/
theorem claim2_amended (oracle : ℕ → Bool) (k : ℕ) (b : Buffer)
    (hids : b.entries.Pairwise (fun a c => a.id ≠ c.id)) :
    (flushBuffer oracle k b).2.2 = k + b.entries.length ∧
    ∀ p ∈ (queryOrderByTimestamp b.entries).enumFrom k,
      (oracle p.1 = false → p.2 ∈ (flushBuffer oracle k b).1.entries) ∧
      (oracle p.1 = true → p.2 ∉ (flushBuffer oracle k b).1.entries) := by
  have hperm : (queryOrderByTimestamp b.entries).Perm b.entries :=
    List.perm_insertionSort tsLe b.entries
  constructor
  · show (drainRows oracle k (queryOrderByTimestamp b.entries)).2.2 = k + b.entries.length
    rw [drainRows_cursor, hperm.length_eq]
  · intro p hp
    have hsorted_ids : (queryOrderByTimestamp b.entries).Pairwise (fun a c => a.id ≠ c.id) :=
      (List.Perm.pairwise_iff (fun h heq => h heq.symm) hperm).mpr hids
    have henum := pairwise_enumFrom (n := k) hsorted_ids
    have hpmem : p.2 ∈ b.entries := hperm.mem_iff.mp (mem_enumFrom_snd hp)
    have hmem_filter :
        p.2 ∈ (flushBuffer oracle k b).1.entries ↔
          p.2 ∈ b.entries ∧
            p.2.id ∉ (drainRows oracle k (queryOrderByTimestamp b.entries)).1 := by
      show p.2 ∈ List.filter _ b.entries ↔ _
      rw [List.mem_filter]
      simp
    constructor
    · intro hfail
      refine hmem_filter.mpr ⟨hpmem, ?_⟩
      rw [drainRows_ids]
      intro hin
      rcases List.mem_map.mp hin with ⟨q, hq, hqid⟩
      rcases List.mem_filter.mp hq with ⟨hqenum, hqoracle⟩
      by_cases hqp : q = p
      · subst hqp
        rw [hfail] at hqoracle
        exact Bool.false_ne_true hqoracle
      · have hsym : Symmetric (fun a c : ℕ × BufferEntry => a.2.id ≠ c.2.id) := by
          intro a c h heq
          exact h heq.symm
        exact List.Pairwise.forall hsym henum hqenum hp hqp hqid
    · intro hok hin
      rcases hmem_filter.mp hin with ⟨-, hnot⟩
      apply hnot
      rw [drainRows_ids]
      exact List.mem_map.mpr ⟨p, List.mem_filter.mpr ⟨hp, by rw [hok]⟩, rfl⟩

/-- Witness for C2-as-amended on the concrete two-row buffer: the failed
first row remains, the succeeded second row is gone, both were attempted. -/
theorem claim2_amended_witness :
    drainBuffer.entries.Pairwise (fun a c => a.id ≠ c.id) ∧
    (flushBuffer drainOracle 0 drainBuffer).2.2 = 0 + drainBuffer.entries.length ∧
    (drainOracle 0 = false →
      ({ id := 1, timestamp := 1, payload := buildComplete (zeroSample 1) } : BufferEntry) ∈
        (flushBuffer drainOracle 0 drainBuffer).1.entries) := by
  have hids : drainBuffer.entries.Pairwise (fun a c => a.id ≠ c.id) := by decide
  have h := claim2_amended drainOracle 0 drainBuffer hids
  refine ⟨hids, h.1, ?_⟩
  intro hfail
  have hp : ((0 : ℕ), ({ id := 1, timestamp := 1, payload := buildComplete (zeroSample 1) } : BufferEntry)) ∈
      (queryOrderByTimestamp drainBuffer.entries).enumFrom 0 := by decide
  exact (h.2 _ hp).1 hfail

/-- Counterexample to C1 as stated: four samples with non-decreasing
timestamps 2, 3, 4, 5 — the first one's live upload fails (it is buffered),
the second is delivered live, the third is processed offline, and the drain
triggered by the fourth then delivers the old buffered records *after* the
newer live record: the ingest endpoint observes timestamps 3, 2, 4, 5. -/
theorem claim1_counterexample :
    List.Sorted (· ≤ ·) (orderingInputs.map (fun i => i.sample.timestamp)) ∧
    deliveredTs (runAgentFinal orderingOracle 0 orderingInputs true) = [3, 2, 4, 5] ∧
    ¬ List.Sorted (· ≤ ·) (deliveredTs (runAgentFinal orderingOracle 0 orderingInputs true)) := by
  refine ⟨?_, ?_, ?_⟩ <;> decide

lemma drainRows_all (oracle : ℕ → Bool) (hall : ∀ j, oracle j = true) :
    ∀ (l : List BufferEntry) (k : ℕ),
      drainRows oracle k l =
        (l.map (fun e => e.id), l.map (fun e => e.payload), k + l.length) := by
  intro l
  induction l with
  | nil => intro k; simp [drainRows]
  | cons e rest ih =>
    intro k
    simp only [drainRows, hall k, if_pos, List.map_cons, ih (k + 1), List.length_cons]
    simp [Prod.ext_iff]
    omega

lemma flushBuffer_all (oracle : ℕ → Bool) (hall : ∀ j, oracle j = true)
    (k : ℕ) (b : Buffer) :
    (flushBuffer oracle k b).1.entries = [] ∧
    (flushBuffer oracle k b).2.1 =
      (queryOrderByTimestamp b.entries).map (fun e => e.payload) ∧
    (flushBuffer oracle k b).2.2 = k + b.entries.length := by
  have hperm : (queryOrderByTimestamp b.entries).Perm b.entries :=
    List.perm_insertionSort tsLe b.entries
  simp only [flushBuffer, drainRows_all oracle hall]
  refine ⟨?_, ?_, ?_⟩
  · rw [List.filter_eq_nil_iff]
    intro e he
    simp only [decide_eq_true_eq, not_not]
    exact List.mem_map.mpr ⟨e, hperm.mem_iff.mpr he, rfl⟩
  · trivial
  · rw [hperm.length_eq]

lemma sortedLe_append {l₁ l₂ : List ℤ} (h₁ : List.Sorted (· ≤ ·) l₁)
    (h₂ : List.Sorted (· ≤ ·) l₂) (h : ∀ x ∈ l₁, ∀ y ∈ l₂, x ≤ y) :
    List.Sorted (· ≤ ·) (l₁ ++ l₂) :=
  List.pairwise_append.mpr ⟨h₁, h₂, h⟩

lemma drain_delivered_facts (entries : List BufferEntry)
    (hpayts : ∀ e ∈ entries, e.payload.timestamp = e.timestamp) :
    ((queryOrderByTimestamp entries).map (fun e => e.payload)).map (fun r => r.timestamp) =
      (queryOrderByTimestamp entries).map (fun e => e.timestamp) ∧
    List.Sorted (· ≤ ·) ((queryOrderByTimestamp entries).map (fun e => e.timestamp)) ∧
    (∀ y ∈ (queryOrderByTimestamp entries).map (fun e => e.timestamp),
      ∃ e ∈ entries, e.timestamp = y) := by
  have hperm : (queryOrderByTimestamp entries).Perm entries :=
    List.perm_insertionSort tsLe entries
  refine ⟨?_, ?_, ?_⟩
  · rw [List.map_map]
    exact List.map_congr_left (fun e he => hpayts e (hperm.mem_iff.mp he))
  · have hs : List.Pairwise tsLe (queryOrderByTimestamp entries) :=
      List.sorted_insertionSort tsLe entries
    exact @List.Pairwise.map ℤ BufferEntry tsLe (queryOrderByTimestamp entries)
      (· ≤ ·) (fun e => e.timestamp) (fun a c hab => hab) hs
  · intro y hy
    rcases List.mem_map.mp hy with ⟨e, he, rfl⟩
    exact ⟨e, hperm.mem_iff.mp he, rfl⟩

lemma processSample_offline_eq (oracle : ℕ → Bool) (st : AgentState) (now : ℚ) (s : Sample) :
    processSample oracle st false now s =
      { predictor := (shouldTransmitPacket st.predictor now s.speed s.power
          (s.battery : ℚ) (s.heading : ℚ)).2
        buffer := storeToBuffer st.buffer s.timestamp (buildComplete s)
        was_offline := true
        delivered := st.delivered
        attempts := st.attempts } := rfl

lemma processSample_online_drain_eq (oracle : ℕ → Bool) (st : AgentState) (now : ℚ)
    (s : Sample) (hwo : st.was_offline = true)
    (hok : oracle (flushBuffer oracle st.attempts st.buffer).2.2 = true) :
    processSample oracle st true now s =
      { predictor := (shouldTransmitPacket st.predictor now s.speed s.power
          (s.battery : ℚ) (s.heading : ℚ)).2
        buffer := (flushBuffer oracle st.attempts st.buffer).1
        was_offline := false
        delivered := st.delivered ++ (flushBuffer oracle st.attempts st.buffer).2.1 ++
          [buildCompressed s (shouldTransmitPacket st.predictor now s.speed s.power
            (s.battery : ℚ) (s.heading : ℚ)).1]
        attempts := (flushBuffer oracle st.attempts st.buffer).2.2 + 1 } := by
  simp [processSample, hwo, hok]

lemma processSample_online_nodrain_eq (oracle : ℕ → Bool) (st : AgentState) (now : ℚ)
    (s : Sample) (hwo : st.was_offline = false) (hok : oracle st.attempts = true) :
    processSample oracle st true now s =
      { predictor := (shouldTransmitPacket st.predictor now s.speed s.power
          (s.battery : ℚ) (s.heading : ℚ)).2
        buffer := st.buffer
        was_offline := false
        delivered := st.delivered ++ [buildCompressed s (shouldTransmitPacket st.predictor
          now s.speed s.power (s.battery : ℚ) (s.heading : ℚ)).1]
        attempts := st.attempts + 1 } := by
  simp [processSample, hwo, hok]

lemma initAgentState_good (t0 : ℚ) (bound : ℤ) : GoodState (initAgentState t0) bound := by
  refine ⟨?_, ?_, ?_, ?_, ?_, ?_⟩ <;> simp [initAgentState, deliveredTs, GoodState]

lemma processSample_good (oracle : ℕ → Bool) (hall : ∀ j, oracle j = true)
    (st : AgentState) (bound : ℤ) (online : Bool) (now : ℚ) (s : Sample)
    (hg : GoodState st bound) (hb : bound ≤ s.timestamp) :
    GoodState (processSample oracle st online now s) s.timestamp := by
  obtain ⟨hsort, hdelbuf, hbufbound, hdelbound, hoffempty, hpayts⟩ := hg
  cases online with
  | false =>
    rw [processSample_offline_eq]
    refine ⟨hsort, ?_, ?_, ?_, ?_, ?_⟩
    · intro x hx e he
      simp only [storeToBuffer, List.mem_append, List.mem_singleton] at he
      rcases he with he | he
      · exact hdelbuf x hx e he
      · subst he
        exact le_trans (hdelbound x hx) hb
    · intro e he
      simp only [storeToBuffer, List.mem_append, List.mem_singleton] at he
      rcases he with he | he
      · exact le_trans (hbufbound e he) hb
      · subst he; exact le_refl _
    · intro x hx
      exact le_trans (hdelbound x hx) hb
    · intro hcon; cases hcon
    · intro e he
      simp only [storeToBuffer, List.mem_append, List.mem_singleton] at he
      rcases he with he | he
      · exact hpayts e he
      · subst he; rfl
  | true =>
    by_cases hwo : st.was_offline
    · -- a drain pass runs; with an all-success transport it empties the buffer
      obtain ⟨hfe, hfd, -⟩ := flushBuffer_all oracle hall st.attempts st.buffer
      rw [processSample_online_drain_eq oracle st now s hwo (hall _)]
      obtain ⟨hmap, hmidsorted, hmidmem⟩ := drain_delivered_facts st.buffer.entries hpayts
      have hmid : ((flushBuffer oracle st.attempts st.buffer).2.1).map
          (fun r => r.timestamp) =
          (queryOrderByTimestamp st.buffer.entries).map (fun e => e.timestamp) := by
        rw [hfd]; exact hmap
      refine ⟨?_, ?_, ?_, ?_, ?_, ?_⟩
      · show List.Sorted (· ≤ ·) ((st.delivered ++ (flushBuffer oracle st.attempts st.buffer).2.1 ++ _).map _)
        rw [List.map_append, List.map_append, hmid]
        apply sortedLe_append
        · apply sortedLe_append hsort (hmid ▸ hmidsorted)
          · intro x hx y hy
            rcases hmidmem y hy with ⟨e, he, rfl⟩
            exact hdelbuf x hx e he
        · simp [buildCompressed]
        · intro x hx y hy
          simp only [List.map_cons, List.map_nil, List.mem_singleton] at hy
          subst hy
          show x ≤ (buildCompressed s _).timestamp
          rcases List.mem_append.mp hx with hx | hx
          · exact le_trans (hdelbound x hx) hb
          · rcases hmidmem x hx with ⟨e, he, rfl⟩
            exact le_trans (hbufbound e he) hb
      · intro x hx e he
        rw [show (flushBuffer oracle st.attempts st.buffer).1.entries = [] from hfe] at he
        cases he
      · intro e he
        rw [show (flushBuffer oracle st.attempts st.buffer).1.entries = [] from hfe] at he
        cases he
      · intro x hx
        simp only [deliveredTs, List.map_append, List.mem_append, hmid] at hx
        rcases hx with hx | hx
        · rcases hx with hx | hx
          · exact le_trans (hdelbound x hx) hb
          · rcases hmidmem x hx with ⟨e, he, rfl⟩
            exact le_trans (hbufbound e he) hb
        · simp only [buildCompressed, List.map_cons, List.map_nil, List.mem_singleton] at hx
          subst hx; exact le_refl _
      · intro _
        exact hfe
      · intro e he
        rw [show (flushBuffer oracle st.attempts st.buffer).1.entries = [] from hfe] at he
        cases he
    · -- no drain pending: the buffer is already empty
      have hwo' : st.was_offline = false := by
        cases h : st.was_offline
        · rfl
        · exact absurd h hwo
      have hempty := hoffempty hwo'
      rw [processSample_online_nodrain_eq oracle st now s hwo' (hall _)]
      refine ⟨?_, ?_, ?_, ?_, ?_, ?_⟩
      · show List.Sorted (· ≤ ·) ((st.delivered ++ _).map _)
        rw [List.map_append]
        apply sortedLe_append hsort
        · simp [buildCompressed]
        · intro x hx y hy
          simp only [buildCompressed, List.map_cons, List.map_nil, List.mem_singleton] at hy
          subst hy
          exact le_trans (hdelbound x hx) hb
      · intro x hx e he
        rw [hempty] at he
        cases he
      · intro e he
        rw [hempty] at he
        cases he
      · intro x hx
        simp only [deliveredTs, List.map_append, List.mem_append] at hx
        rcases hx with hx | hx
        · exact le_trans (hdelbound x hx) hb
        · simp only [buildCompressed, List.map_cons, List.map_nil, List.mem_singleton] at hx
          subst hx; exact le_refl _
      · intro _
        exact hempty
      · intro e he
        rw [hempty] at he
        cases he

lemma sorted_headI_cons {l : List ℤ} (h : List.Sorted (· ≤ ·) l) :
    List.Sorted (· ≤ ·) (l.headI :: l) := by
  cases l with
  | nil => simp
  | cons a t =>
    rw [List.headI_cons, List.sorted_cons]
    refine ⟨?_, h⟩
    intro b hb
    rcases List.mem_cons.mp hb with hb | hb
    · subst hb; exact le_refl _
    · exact List.rel_of_sorted_cons h b hb

lemma runAgent_fold_good (oracle : ℕ → Bool) (hall : ∀ j, oracle j = true) :
    ∀ (inputs : List AgentInput) (st : AgentState) (bound : ℤ),
      GoodState st bound →
      List.Sorted (· ≤ ·) (bound :: inputs.map (fun i => i.sample.timestamp)) →
      ∃ bound2, GoodState
        (inputs.foldl (fun st i => processSample oracle st i.online i.now i.sample) st)
        bound2 := by
  intro inputs
  induction inputs with
  | nil => intro st bound hg _; exact ⟨bound, hg⟩
  | cons i rest ih =>
    intro st bound hg hsorted
    simp only [List.map_cons] at hsorted
    rw [List.sorted_cons] at hsorted
    have hb : bound ≤ i.sample.timestamp := hsorted.1 _ (List.mem_cons_self _ _)
    have hgood := processSample_good oracle hall st bound i.online i.now i.sample hg hb
    simp only [List.foldl_cons]
    exact ih _ _ hgood hsorted.2

/-- Claim C1 as amended: for every sample sequence with non-decreasing
timestamps and every interleaving of online/offline toggles, *provided every
transport call succeeds*, the sequence of records delivered to the ingest
endpoint (live and drain uploads together, final flush included) is
non-decreasing in sample timestamp.  (The unrestricted claim is refuted by
`claim1_counterexample`: one failed upload leaves an old record in the buffer
while newer records are delivered live, and a later drain delivers it out of
order — the fallback path does not set `was_offline`, and a drain pass does
not precede every live upload.) -/
theorem claim1_amended (oracle : ℕ → Bool) (t0 : ℚ) (inputs : List AgentInput)
    (finalOnline : Bool) (hall : ∀ j, oracle j = true)
    (hmono : List.Sorted (· ≤ ·) (inputs.map (fun i => i.sample.timestamp))) :
    List.Sorted (· ≤ ·) (deliveredTs (runAgentFinal oracle t0 inputs finalOnline)) := by
  obtain ⟨bound2, hg⟩ := runAgent_fold_good oracle hall inputs (initAgentState t0)
    ((inputs.map (fun i => i.sample.timestamp)).headI)
    (initAgentState_good t0 _) (sorted_headI_cons hmono)
  obtain ⟨hsort, hdelbuf, hbufbound, hdelbound, hoffempty, hpayts⟩ := hg
  show List.Sorted (· ≤ ·) (deliveredTs
    (if finalOnline && (runAgent oracle t0 inputs).was_offline then _ else _))
  by_cases hcond : (finalOnline && (runAgent oracle t0 inputs).was_offline) = true
  · rw [if_pos hcond]
    obtain ⟨-, hfd, -⟩ :=
      flushBuffer_all oracle hall (runAgent oracle t0 inputs).attempts
        (runAgent oracle t0 inputs).buffer
    obtain ⟨hmap, hmidsorted, hmidmem⟩ :=
      drain_delivered_facts (runAgent oracle t0 inputs).buffer.entries hpayts
    show List.Sorted (· ≤ ·) (((runAgent oracle t0 inputs).delivered ++ _).map _)
    rw [List.map_append]
    apply sortedLe_append hsort
    · rw [hfd, hmap]
      exact hmidsorted
    · intro x hx y hy
      rw [hfd, hmap] at hy
      rcases hmidmem y hy with ⟨e, he, rfl⟩
      exact hdelbuf x hx e he
  · rw [if_neg hcond]
    exact hsort

/-- Witness for C1-as-amended: a concrete mixed online/offline run with an
always-succeeding transport delivers its records in timestamp order. -/
theorem claim1_amended_witness :
    (∀ j, (fun _ => true : ℕ → Bool) j = true) ∧
    List.Sorted (· ≤ ·) (orderingInputs.map (fun i => i.sample.timestamp)) ∧
    List.Sorted (· ≤ ·) (deliveredTs (runAgentFinal (fun _ => true) 0 orderingInputs true)) := by
  have hmono : List.Sorted (· ≤ ·) (orderingInputs.map (fun i => i.sample.timestamp)) := by
    decide
  exact ⟨fun _ => rfl, hmono,
    claim1_amended (fun _ => true) 0 orderingInputs true (fun _ => rfl) hmono⟩
